import Mathlib

/-!
Verification development for the playlist download pipeline
(`download_songs.py`).  Python strings are embedded as `List Char`
(`Str`), so that every string operation the source uses (`strip`,
`split(' - ')`, `replace`, membership `in`, `re.sub` character
removal) is an executable Lean function with provable equations.
Lines of a manifest are modelled without their trailing newline: the
only place the raw line is consulted (`' - ' in line`) cannot be
affected by a trailing newline, since the needle contains none.
-/

abbrev Str := List Char

/-- Whitespace predicate matching Python `str.strip()` (ASCII range). -/
def isSpaceChar (c : Char) : Bool :=
  c = ' ' || c = '\t' || c = '\n' || c = '\r' || c = '\x0b' || c = '\x0c'

/-- Python `s.strip()`: drop leading and trailing whitespace. -/
def pyStrip (s : Str) : Str :=
  ((s.dropWhile isSpaceChar).reverse.dropWhile isSpaceChar).reverse

/-- The separator `" - "` used by the manifest format. -/
def sepStr : Str := [' ', '-', ' ']

/-- Python `' - ' in line`: the separator occurs as a contiguous substring. -/
def containsDashSep (s : Str) : Bool :=
  s.tails.any (fun t => sepStr.isPrefixOf t)

/-- Python `s.split(' - ')`: left-to-right, non-overlapping split on the
three-character separator.  Embeds the `line.strip().split(' - ')` call of
`PlaylistDownloader._parse_txt_file`. -/
def splitDash : Str → List Str
  | ' ' :: '-' :: ' ' :: rest => [] :: splitDash rest
  | c :: cs =>
    match splitDash cs with
    | [] => [[c]]
    | h :: t => (c :: h) :: t
  | [] => [[]]

/-- Join a list of segments with the `" - "` separator; inverse of
`splitDash` (used only in proofs). -/
def sepJoin : List Str → Str
  | [] => []
  | [x] => x
  | x :: xs => x ++ sepStr ++ sepJoin xs

/-- The `Track` dataclass of `download_songs.py`. -/
structure Track where
  title : Str
  artists : Str
  album : Str
deriving DecidableEq, Repr

/-- One iteration of the content-line loop of
`PlaylistDownloader._parse_txt_file`: the line is kept only when its strip
is non-empty, the raw line contains `" - "`, and the stripped line splits
into exactly three segments; those become `Track(title, artists, album)`. -/
def parseTrackLine (line : Str) : Option Track :=
  if !(pyStrip line).isEmpty && containsDashSep line then
    match splitDash (pyStrip line) with
    | [a, b, c] => some ⟨a, b, c⟩
    | _ => none
  else none

/-- The header tag `"Playlist: "` consulted on the first manifest line. -/
def playlistTag : Str := "Playlist: ".toList

/-- Python `first_line.replace("Playlist: ", "")`: remove every
left-to-right, non-overlapping occurrence of the tag. -/
def removeTagAll : Str → Str
  | 'P' :: 'l' :: 'a' :: 'y' :: 'l' :: 'i' :: 's' :: 't' :: ':' :: ' ' :: rest =>
      removeTagAll rest
  | c :: cs => c :: removeTagAll cs
  | [] => []

/-- Embedding of `PlaylistDownloader._parse_txt_file` on the list of lines
of the manifest.  An empty file raises `IndexError` on `lines[0]` which the
`except` clause turns into the default result `("", [])`.  The playlist
name is taken from the stripped first line when it starts with the tag, by
removing all tag occurrences and stripping again; tracks come from the
lines after the 5-line header. -/
def parseTxtLines (lines : List Str) : Str × List Track :=
  match lines with
  | [] => ([], [])
  | first :: _ =>
    let firstLine := pyStrip first
    let name :=
      if playlistTag.isPrefixOf firstLine then pyStrip (removeTagAll firstLine)
      else []
    (name, (lines.drop 5).filterMap parseTrackLine)

/-- The character class of `re.sub(r'[<>:"/\\|?*]', '', unsafe)` in
`PlaylistDownloader._get_safe_filename`. -/
def forbiddenChars : List Char := ['<', '>', ':', '\"', '/', '\\', '|', '?', '*']

/-- The `re.sub(..., '', unsafe)` call: every forbidden character is
removed, all others are kept. -/
def sanitize (s : Str) : Str :=
  s.filter (fun c => !(forbiddenChars.contains c))

/-- Embedding of `PlaylistDownloader._get_safe_filename`: sanitize the
composite `f"{track.title} - {track.artists}"`. -/
def getSafeFilename (t : Track) : Str :=
  sanitize (t.title ++ [' ', '-', ' '] ++ t.artists)

/-!
Resolver, fetcher and orchestrator.  The external collaborators
(`yt_dlp` search, `yt_dlp` download) are modelled at their interface
boundary: an environment supplies, per query string, the search response
(`extract_info`), and, per video url, whether `ydl.download` succeeds or
raises.  Exceptions raised by the collaborators are modelled explicitly
(`SearchResp.exn`, `FetchResp.err`) because the source catches them with
`try/except` and converts them into per-track terminal states.  The
filesystem is the list of paths that exist.  The worker-pool execution of
`process_txt_folder` is modelled as a sequential interleaving of the
per-track jobs, which fixes one of the orders the pool may realise.
-/

/-- One search entry of `result['entries']`: an optional `url` field and
the video `id`. -/
structure Entry where
  url : Option Str
  id : Str
deriving DecidableEq, Repr

/-- Possible results of `ydl.extract_info(...)` as consumed by the source:
`None`, a dict without an `'entries'` key, a dict with an entry list, or a
raised exception (caught by the `except` clause). -/
inductive SearchResp where
  | nullResult : SearchResp
  | withoutEntries : SearchResp
  | withEntries (entries : List Entry) : SearchResp
  | exn : SearchResp
deriving DecidableEq, Repr

/-- Python `video.get('url') or f"https://www.youtube.com/watch?v={video['id']}"`:
a missing or falsy (empty) `url` field falls back to the watch link. -/
def watchUrl (id : Str) : Str := "https://www.youtube.com/watch?v=".toList ++ id

/-- Url selected from the first search entry. -/
def entryUrl (e : Entry) : Str :=
  match e.url with
  | some u => if u.isEmpty then watchUrl e.id else u
  | none => watchUrl e.id

/-- The query string `f"ytsearch:{track.title} {track.artists}"` passed to
`extract_info` by `PlaylistDownloader._search_and_get_url`. -/
def ytQuery (t : Track) : Str := "ytsearch:".toList ++ t.title ++ ' ' :: t.artists

/-- Embedding of `PlaylistDownloader._search_and_get_url`: issue the query
once; if the result is truthy, has an `'entries'` key and a non-empty
entry list, answer the url of the first entry; in every other case,
including a raised exception (caught and logged), answer `None`.  No
retry is performed: the environment is consulted exactly once. -/
def searchAndGetUrl (search : Str → SearchResp) (t : Track) : Option Str :=
  match search (ytQuery t) with
  | SearchResp.withEntries (e :: _) => some (entryUrl e)
  | SearchResp.withEntries [] => none
  | SearchResp.nullResult => none
  | SearchResp.withoutEntries => none
  | SearchResp.exn => none

/-- Result of one `ydl.download([video_url])` call: success, or a raised
exception (caught by the inner `except` of `_download_track`). -/
inductive FetchResp where
  | ok : FetchResp
  | err : FetchResp
deriving DecidableEq, Repr

/-- Environment: the two external collaborators of the pipeline. -/
structure Env where
  search : Str → SearchResp
  fetch : Str → FetchResp

/-- The filesystem, as the list of file paths that exist. -/
abbrev FS := List Str

/-- Terminal state of one track job, one per `return`/branch of
`PlaylistDownloader._download_track`. -/
inductive Outcome where
  | skipped : Outcome
  | notFound : Outcome
  | downloaded : Outcome
  | fetchFailed : Outcome
deriving DecidableEq, Repr

/-- The target path `playlist_folder / f"{safe_filename}.mp3"`. -/
def outputPath (folder : Str) (t : Track) : Str :=
  folder ++ '/' :: getSafeFilename t ++ ".mp3".toList

/-- Result of one track job: its terminal state, the filesystem after it,
and how many resolver (`_search_and_get_url`) and fetcher
(`ydl.download`) calls it made. -/
structure StepResult where
  outcome : Outcome
  fs : FS
  rCalls : Nat
  fCalls : Nat
deriving DecidableEq, Repr

/-- Embedding of `PlaylistDownloader._download_track`: skip when the
target file exists (no resolver or fetcher call, filesystem untouched);
otherwise resolve, treating a falsy url as not found; otherwise fetch,
which on success creates exactly the target file and on a raised error
(caught) leaves the filesystem unchanged. -/
def downloadTrack (env : Env) (folder : Str) (fs : FS) (t : Track) : StepResult :=
  let p := outputPath folder t
  if p ∈ fs then ⟨Outcome.skipped, fs, 0, 0⟩
  else
    match searchAndGetUrl env.search t with
    | none => ⟨Outcome.notFound, fs, 1, 0⟩
    | some url =>
      if url.isEmpty then ⟨Outcome.notFound, fs, 1, 0⟩
      else
        match env.fetch url with
        | FetchResp.ok => ⟨Outcome.downloaded, p :: fs, 1, 1⟩
        | FetchResp.err => ⟨Outcome.fetchFailed, fs, 1, 1⟩

/-- Aggregate result of one playlist run: the per-track terminal states in
input order, the final filesystem, and the total resolver and fetcher
call counts. -/
structure RunResult where
  outcomes : List Outcome
  fs : FS
  rCalls : Nat
  fCalls : Nat
deriving DecidableEq, Repr

/-- The per-playlist loop of `PlaylistDownloader.process_txt_folder`:
every parsed track is submitted as one job and awaited
(`asyncio.gather`), modelled as a sequential interleaving of the jobs. -/
def runPlaylist (env : Env) (folder : Str) (fs : FS) : List Track → RunResult
  | [] => ⟨[], fs, 0, 0⟩
  | t :: ts =>
    let s := downloadTrack env folder fs t
    let r := runPlaylist env folder s.fs ts
    ⟨s.outcome :: r.outcomes, r.fs, s.rCalls + r.rCalls, s.fCalls + r.fCalls⟩

/-- Directory used for a manifest by `process_txt_folder`: the manifest is
skipped when no playlist name was parsed; otherwise the directory is
`mp3_folder / playlist_name`, with the parsed name used verbatim. -/
def manifestFolder (mp3Folder : Str) (lines : List Str) : Option Str :=
  if ((parseTxtLines lines).1).isEmpty then none
  else some (mp3Folder ++ '/' :: (parseTxtLines lines).1)

/-- Externally visible result of one playlist's processing as the source
returns it: the coroutine `process_txt_folder` is annotated `-> None` and
returns nothing, so the only results are the unit return value and the
updated filesystem; per-track outcomes are printed, never aggregated or
returned. -/
def processPlaylistEffect (env : Env) (folder : Str) (fs : FS) (ts : List Track) :
    Unit × FS :=
  ((), (runPlaylist env folder fs ts).fs)

/-!
Worker pool.  `process_txt_folder` submits every track job to
`ThreadPoolExecutor(max_workers=3)`, whose scheduling guarantee is that a
submitted job starts running only while fewer than `max_workers` jobs are
running.  The pool is modelled as a transition system over job counts;
resolver and fetcher calls are made only by running jobs, so in-flight
calls are bounded by the number of running jobs.
-/

/-- The `max_workers=3` constant of `process_txt_folder`. -/
def maxWorkers : Nat := 3

/-- Pool state: how many submitted jobs are pending, running, finished. -/
structure PoolState where
  pending : Nat
  running : Nat
  done : Nat
deriving DecidableEq, Repr

/-- Transitions of the bounded pool: a pending job may start only while
fewer than `maxWorkers` jobs run; a running job may finish at any time. -/
inductive PoolStep : PoolState → PoolState → Prop
  | start (p r d : Nat) : r < maxWorkers → PoolStep ⟨p + 1, r, d⟩ ⟨p, r + 1, d⟩
  | finish (p r d : Nat) : PoolStep ⟨p, r + 1, d⟩ ⟨p, r, d + 1⟩

/-!
Concrete instances used to evaluate the definitions on closed inputs:
sample tracks, sample environments and sample manifests.
-/

/-- A sample search entry with a present, non-empty url. -/
def sampleEntry : Entry := ⟨some ("u".toList), "vid".toList⟩

/-- A sample track. -/
def sampleTrack : Track := ⟨"a".toList, "b".toList, "c".toList⟩

/-- Environment in which every search succeeds with one entry and every
fetch succeeds. -/
def envAllOk : Env :=
  ⟨fun _ => SearchResp.withEntries [sampleEntry], fun _ => FetchResp.ok⟩

/-- Environment in which every search returns an empty entry list. -/
def envNoResults : Env :=
  ⟨fun _ => SearchResp.withEntries [], fun _ => FetchResp.ok⟩

/-- Environment in which every search succeeds and every fetch raises. -/
def envFetchErr : Env :=
  ⟨fun _ => SearchResp.withEntries [sampleEntry], fun _ => FetchResp.err⟩

/-- The third of the five sample tracks. -/
def thirdTrack : Track := ⟨"s3".toList, "a3".toList, "al3".toList⟩

/-- Five distinct sample tracks. -/
def fiveTracks : List Track :=
  [ ⟨"s1".toList, "a1".toList, "al1".toList⟩,
    ⟨"s2".toList, "a2".toList, "al2".toList⟩,
    thirdTrack,
    ⟨"s4".toList, "a4".toList, "al4".toList⟩,
    ⟨"s5".toList, "a5".toList, "al5".toList⟩ ]

/-- Environment in which exactly the third sample track's search returns
no results and every other search and every fetch succeeds. -/
def envThirdMissing : Env :=
  ⟨fun q => if q = ytQuery thirdTrack then SearchResp.withEntries []
            else SearchResp.withEntries [sampleEntry],
   fun _ => FetchResp.ok⟩

/-- A manifest whose playlist's own name contains the header tag. -/
def mixManifest : List Str :=
  [ "Playlist: My Playlist: Mix".toList, "Owner: X".toList,
    "Privacy: Public".toList, "Tracks: 1".toList, [],
    "Song A - Artist B - Album C".toList ]

/-- A manifest whose playlist name contains a forbidden character. -/
def qmarkManifest : List Str := [ "Playlist: A?B".toList ]

/-!
Helper lemmas.
-/

theorem splitDash_ne_nil (l : Str) : splitDash l ≠ [] := by
  induction l using splitDash.induct with
  | case1 rest ih => simp [splitDash]
  | case2 c cs hns hnil ih => simp [splitDash, hnil]
  | case3 c cs hns hd tl heq ih => simp [splitDash, heq]
  | case4 => simp [splitDash]

theorem sepJoin_splitDash (l : Str) : sepJoin (splitDash l) = l := by
  induction l using splitDash.induct with
  | case1 rest ih =>
    rw [splitDash]
    rcases h : splitDash rest with _ | ⟨x, xs⟩
    · exact absurd h (splitDash_ne_nil rest)
    · rw [h] at ih
      cases xs <;> simp_all [sepJoin, sepStr]
  | case2 c cs hns hnil ih => exact absurd hnil (splitDash_ne_nil cs)
  | case3 c cs hns hd tl heq ih =>
    rw [splitDash, heq]
    · rw [heq] at ih
      cases tl <;> simp_all [sepJoin, sepStr]
    · exact hns
  | case4 => simp [splitDash, sepJoin]

theorem containsDashSep_iff (s : Str) : containsDashSep s = true ↔ sepStr <:+: s := by
  rw [containsDashSep, List.any_eq_true, List.infix_iff_prefix_suffix]
  constructor
  · rintro ⟨t, ht, hp⟩
    exact ⟨t, List.isPrefixOf_iff_prefix.mp hp, (List.mem_tails t s).mp ht⟩
  · rintro ⟨t, hp, hs⟩
    exact ⟨t, (List.mem_tails t s).mpr hs, List.isPrefixOf_iff_prefix.mpr hp⟩

theorem pyStrip_isInfix (s : Str) : pyStrip s <:+: s := by
  have h1 : s.dropWhile isSpaceChar <:+ s := List.dropWhile_suffix isSpaceChar
  have h2 : (s.dropWhile isSpaceChar).reverse.dropWhile isSpaceChar <:+
      (s.dropWhile isSpaceChar).reverse := List.dropWhile_suffix isSpaceChar
  have h3 : pyStrip s <+: s.dropWhile isSpaceChar := by
    rw [pyStrip]
    simpa using List.reverse_prefix.mpr h2
  exact (h3.isInfix).trans h1.isInfix

theorem downloadTrack_mem_skip (env : Env) (folder : Str) (fs : FS) (t : Track)
    (h : outputPath folder t ∈ fs) :
    downloadTrack env folder fs t = ⟨Outcome.skipped, fs, 0, 0⟩ := by
  simp [downloadTrack, h]

theorem downloadTrack_fs_mono (env : Env) (folder : Str) (fs : FS) (t : Track) :
    fs ⊆ (downloadTrack env folder fs t).fs := by
  rw [downloadTrack]
  split
  · simp
  · split
    · simp
    · split
      · simp
      · split <;> simp [List.subset_cons_self]

theorem downloadTrack_target_mem (env : Env) (folder : Str) (fs : FS) (t : Track)
    (h : (downloadTrack env folder fs t).outcome = Outcome.skipped ∨
        (downloadTrack env folder fs t).outcome = Outcome.downloaded) :
    outputPath folder t ∈ (downloadTrack env folder fs t).fs := by
  by_cases hm : outputPath folder t ∈ fs
  · simp [downloadTrack, hm]
  · rcases hs : searchAndGetUrl env.search t with _ | url
    · simp [downloadTrack, hm, hs] at h
    · by_cases hu : url.isEmpty
      · simp [downloadTrack, hm, hs, hu] at h
      · cases hf : env.fetch url with
        | ok => simp [downloadTrack, hm, hs, hu, hf]
        | err => simp [downloadTrack, hm, hs, hu, hf] at h

theorem runPlaylist_fs_mono (env : Env) (folder : Str) :
    ∀ (ts : List Track) (fs : FS), fs ⊆ (runPlaylist env folder fs ts).fs := by
  intro ts
  induction ts with
  | nil => intro fs; simp [runPlaylist]
  | cons t ts ih =>
    intro fs
    simp only [runPlaylist]
    exact fun a ha => ih _ (downloadTrack_fs_mono env folder fs t ha)

theorem runPlaylist_targets_mem (env : Env) (folder : Str) :
    ∀ (ts : List Track) (fs : FS),
      (∀ o ∈ (runPlaylist env folder fs ts).outcomes,
          o = Outcome.skipped ∨ o = Outcome.downloaded) →
      ∀ t ∈ ts, outputPath folder t ∈ (runPlaylist env folder fs ts).fs := by
  intro ts
  induction ts with
  | nil => intro fs h t ht; simp at ht
  | cons t ts ih =>
    intro fs h u hu
    simp only [runPlaylist] at h ⊢
    rcases List.mem_cons.mp hu with rfl | hmem
    · have h0 := h _ (List.mem_cons_self _ _)
      have hp := downloadTrack_target_mem env folder fs u h0
      exact runPlaylist_fs_mono env folder ts _ hp
    · exact ih _ (fun o ho => h o (List.mem_cons_of_mem _ ho)) u hmem

theorem runPlaylist_all_present (env : Env) (folder : Str) :
    ∀ (ts : List Track) (fs : FS),
      (∀ t ∈ ts, outputPath folder t ∈ fs) →
      runPlaylist env folder fs ts =
        ⟨List.replicate ts.length Outcome.skipped, fs, 0, 0⟩ := by
  intro ts
  induction ts with
  | nil => intro fs h; simp [runPlaylist]
  | cons t ts ih =>
    intro fs h
    have hd := downloadTrack_mem_skip env folder fs t (h t (List.mem_cons_self t ts))
    simp only [runPlaylist, hd]
    rw [ih fs (fun u hu => h u (List.mem_cons_of_mem _ hu))]
    simp [List.replicate_succ]

theorem runPlaylist_length (env : Env) (folder : Str) :
    ∀ (ts : List Track) (fs : FS),
      (runPlaylist env folder fs ts).outcomes.length = ts.length := by
  intro ts
  induction ts with
  | nil => intro fs; simp [runPlaylist]
  | cons t ts ih => intro fs; simp only [runPlaylist, List.length_cons, ih]

/-!
Claim theorems.
-/

/-- C2: for every track input, `_get_safe_filename` returns a non-empty
string containing none of the forbidden characters; the function is a
total, deterministic Lean function.  Non-emptiness holds even when title
and artists are empty or all-illegal, because the composite separator
`" - "` survives sanitization. -/
theorem c2_sanitizer_total (title artists album : Str) :
    (getSafeFilename ⟨title, artists, album⟩).isEmpty = false ∧
    (getSafeFilename ⟨title, artists, album⟩).all
      (fun c => !(forbiddenChars.contains c)) = true := by
  constructor
  · have hm : '-' ∈ getSafeFilename ⟨title, artists, album⟩ := by
      rw [getSafeFilename, sanitize]
      refine List.mem_filter.mpr ⟨?_, by decide⟩
      simp
    cases h : getSafeFilename ⟨title, artists, album⟩ with
    | nil => rw [h] at hm; simp at hm
    | cons x xs => rfl
  · rw [getSafeFilename, sanitize, List.all_eq_true]
    intro c hc
    exact (List.mem_filter.mp hc).2

/-- C3: a content line whose strip splits into exactly three
`" - "`-separated segments `[a, b, c]` parses to `Track a b c`; a line
with any other number of segments is dropped (`none`); and the parsed
manifest's track list is exactly the per-line parse of the lines after the
5-line header. -/
theorem c3_parser_exactness :
    (∀ (line a b c : Str), splitDash (pyStrip line) = [a, b, c] →
        parseTrackLine line = some ⟨a, b, c⟩) ∧
    (∀ line : Str, (splitDash (pyStrip line)).length ≠ 3 →
        parseTrackLine line = none) ∧
    (∀ lines : List Str,
        (parseTxtLines lines).2 = (lines.drop 5).filterMap parseTrackLine) := by
  refine ⟨?_, ?_, ?_⟩
  · intro line a b c h
    have hje : pyStrip line = a ++ sepStr ++ (b ++ sepStr ++ c) := by
      have hj := sepJoin_splitDash (pyStrip line)
      rw [h] at hj
      simp only [sepJoin] at hj
      simpa [List.append_assoc] using hj.symm
    have hpe : (pyStrip line).isEmpty = false := by
      rw [hje]
      simp [sepStr]
    have hinf : sepStr <:+: pyStrip line := by
      rw [hje]
      exact ⟨a, b ++ sepStr ++ c, by simp⟩
    have hcd : containsDashSep line = true :=
      (containsDashSep_iff line).mpr (hinf.trans (pyStrip_isInfix line))
    simp [parseTrackLine, hpe, hcd, h]
  · intro line h
    rw [parseTrackLine]
    split
    · split <;> simp_all
    · rfl
  · intro lines
    cases lines <;> simp [parseTxtLines]

/-- C3 witness: a 3-segment line parses to the expected track and a
2-segment and a 4-segment line are dropped. -/
theorem c3_parser_exactness_witness :
    parseTrackLine ("Song A - Artist B - Album C".toList) =
      some ⟨"Song A".toList, "Artist B".toList, "Album C".toList⟩ ∧
    parseTrackLine ("A - B".toList) = none ∧
    parseTrackLine ("A - B - C - D".toList) = none :=
  ⟨c3_parser_exactness.1 ("Song A - Artist B - Album C".toList)
      ("Song A".toList) ("Artist B".toList) ("Album C".toList) (by decide),
   c3_parser_exactness.2.1 ("A - B".toList) (by decide),
   c3_parser_exactness.2.1 ("A - B - C - D".toList) (by decide)⟩

/-- C1 (amended): a track whose target file exists is skipped with no
resolver or fetcher call and the filesystem untouched; and when every
outcome of a first run is `skipped` or `downloaded`, a second run over the
first run's filesystem skips every track, performs zero resolver and
fetcher calls, and leaves the filesystem unchanged. -/
theorem c1_skip_and_idempotence :
    (∀ (env : Env) (folder : Str) (fs : FS) (t : Track),
        outputPath folder t ∈ fs →
        downloadTrack env folder fs t = ⟨Outcome.skipped, fs, 0, 0⟩) ∧
    (∀ (env : Env) (folder : Str) (fs : FS) (ts : List Track),
        (∀ o ∈ (runPlaylist env folder fs ts).outcomes,
            o = Outcome.skipped ∨ o = Outcome.downloaded) →
        runPlaylist env folder (runPlaylist env folder fs ts).fs ts =
          ⟨List.replicate ts.length Outcome.skipped,
            (runPlaylist env folder fs ts).fs, 0, 0⟩) := by
  constructor
  · exact downloadTrack_mem_skip
  · intro env folder fs ts h
    exact runPlaylist_all_present env folder ts _
      (runPlaylist_targets_mem env folder ts fs h)

/-- C1 witness: with a fully working environment, a single-track first run
downloads the track and the second run skips it with zero calls. -/
theorem c1_skip_and_idempotence_witness :
    downloadTrack envAllOk ("f".toList)
        [outputPath ("f".toList) sampleTrack] sampleTrack =
      ⟨Outcome.skipped, [outputPath ("f".toList) sampleTrack], 0, 0⟩ ∧
    runPlaylist envAllOk ("f".toList)
        ((runPlaylist envAllOk ("f".toList) [] [sampleTrack]).fs) [sampleTrack] =
      ⟨List.replicate 1 Outcome.skipped,
        (runPlaylist envAllOk ("f".toList) [] [sampleTrack]).fs, 0, 0⟩ :=
  ⟨c1_skip_and_idempotence.1 envAllOk ("f".toList)
      [outputPath ("f".toList) sampleTrack] sampleTrack (by decide),
   c1_skip_and_idempotence.2 envAllOk ("f".toList) [] [sampleTrack] (by decide)⟩

/-- C1 counterexample: when the single track's search returns no results,
the first run downloads nothing, and the second run is not a skip: the
resolver is invoked again and the outcome is `notFound`. -/
theorem c1_counterexample :
    (runPlaylist envNoResults ("f".toList)
        ((runPlaylist envNoResults ("f".toList) [] [sampleTrack]).fs)
        [sampleTrack]).outcomes = [Outcome.notFound] ∧
    (runPlaylist envNoResults ("f".toList)
        ((runPlaylist envNoResults ("f".toList) [] [sampleTrack]).fs)
        [sampleTrack]).rCalls = 1 ∧
    decide ((runPlaylist envNoResults ("f".toList)
        ((runPlaylist envNoResults ("f".toList) [] [sampleTrack]).fs)
        [sampleTrack]).outcomes = List.replicate 1 Outcome.skipped) = false := by
  decide

/-- C4 (amended): every track of a playlist run yields exactly one
terminal outcome: the outcome list has one entry per track, in input
order. -/
theorem c4_one_outcome_per_track (env : Env) (folder : Str) (fs : FS)
    (ts : List Track) :
    (runPlaylist env folder fs ts).outcomes.length = ts.length :=
  runPlaylist_length env folder ts fs

/-- C4 counterexample: the per-playlist procedure returns `None`, so two
runs whose outcome distributions differ (one `notFound` versus one
`fetchFailed`) return identical results and leave identical filesystems:
no aggregated count report is returned. -/
theorem c4_counterexample :
    processPlaylistEffect envNoResults ("f".toList) [] [sampleTrack] =
      processPlaylistEffect envFetchErr ("f".toList) [] [sampleTrack] ∧
    decide ((runPlaylist envNoResults ("f".toList) [] [sampleTrack]).outcomes =
        (runPlaylist envFetchErr ("f".toList) [] [sampleTrack]).outcomes) =
      false := by
  decide

/-- C5: every track of a run yields an outcome no matter how the
environment fails (totality of the embedded worker, whose source catches
all exceptions locally); concretely, with five tracks where exactly the
third track's search returns no results, all five tracks are processed,
the other four download, and exactly one `notFound` is recorded. -/
theorem c5_failure_isolation :
    (∀ (env : Env) (folder : Str) (fs : FS) (ts : List Track),
        (runPlaylist env folder fs ts).outcomes.length = ts.length) ∧
    (runPlaylist envThirdMissing ("f".toList) [] fiveTracks).outcomes =
      [Outcome.downloaded, Outcome.downloaded, Outcome.notFound,
        Outcome.downloaded, Outcome.downloaded] ∧
    (runPlaylist envThirdMissing ("f".toList) [] fiveTracks).outcomes.count
        Outcome.notFound = 1 := by
  refine ⟨?_, by decide, by decide⟩
  intro env folder fs ts
  exact runPlaylist_length env folder ts fs

/-- C6: the resolver queries the index at exactly
`"ytsearch:{title} {artists}"`, consults it once, selects the first
returned entry's url, and answers `none` (not found) when the entry list
is empty, the result is falsy or lacks an entries key, or the request
raises; no retry path exists. -/
theorem c6_resolver_first_result :
    (∀ t : Track, ytQuery t = "ytsearch:".toList ++ t.title ++ ' ' :: t.artists) ∧
    (∀ (search : Str → SearchResp) (t : Track) (e : Entry) (es : List Entry),
        search (ytQuery t) = SearchResp.withEntries (e :: es) →
        searchAndGetUrl search t = some (entryUrl e)) ∧
    (∀ (search : Str → SearchResp) (t : Track),
        search (ytQuery t) = SearchResp.withEntries [] →
        searchAndGetUrl search t = none) ∧
    (∀ (search : Str → SearchResp) (t : Track),
        search (ytQuery t) = SearchResp.exn → searchAndGetUrl search t = none) ∧
    (∀ (search : Str → SearchResp) (t : Track),
        search (ytQuery t) = SearchResp.nullResult ∨
          search (ytQuery t) = SearchResp.withoutEntries →
        searchAndGetUrl search t = none) := by
  refine ⟨fun t => rfl, ?_, ?_, ?_, ?_⟩
  · intro search t e es h
    simp [searchAndGetUrl, h]
  · intro search t h
    simp [searchAndGetUrl, h]
  · intro search t h
    simp [searchAndGetUrl, h]
  · rintro search t (h | h) <;> simp [searchAndGetUrl, h]

/-- C6 witness: with one entry the resolver answers its url; with a raised
search it answers `none`. -/
theorem c6_resolver_first_result_witness :
    searchAndGetUrl (fun _ => SearchResp.withEntries [sampleEntry]) sampleTrack =
      some (entryUrl sampleEntry) ∧
    searchAndGetUrl (fun _ => SearchResp.exn) sampleTrack = none :=
  ⟨c6_resolver_first_result.2.1 (fun _ => SearchResp.withEntries [sampleEntry])
      sampleTrack sampleEntry [] rfl,
   c6_resolver_first_result.2.2.2.1 (fun _ => SearchResp.exn) sampleTrack rfl⟩

/-- C7 (amended): the downloader applies no sanitization to the playlist
name: when a directory is created for a manifest, its path is exactly
`mp3_folder ++ "/" ++ parsed_name` with the parsed name verbatim, and any
forbidden character in the parsed name appears in the directory path. -/
theorem c7_unsanitized_folder :
    (∀ (mp3Folder : Str) (lines : List Str) (p : Str),
        manifestFolder mp3Folder lines = some p →
        p = mp3Folder ++ '/' :: (parseTxtLines lines).1) ∧
    (∀ (mp3Folder : Str) (lines : List Str) (p : Str) (c : Char),
        manifestFolder mp3Folder lines = some p →
        c ∈ forbiddenChars → c ∈ (parseTxtLines lines).1 → c ∈ p) := by
  constructor
  · intro mp3Folder lines p hm
    rw [manifestFolder] at hm
    split at hm
    · simp at hm
    · exact (Option.some_inj.mp hm).symm
  · intro mp3Folder lines p c hm hc hn
    rw [manifestFolder] at hm
    split at hm
    · simp at hm
    · rw [← Option.some_inj.mp hm]
      exact List.mem_append_right mp3Folder (List.mem_cons_of_mem '/' hn)

/-- C7 witness: for the sample manifest whose playlist name is `A?B`, the
forbidden character survives into the directory path. -/
theorem c7_unsanitized_folder_witness :
    '?' ∈ ("mp3".toList ++ '/' :: (parseTxtLines qmarkManifest).1) :=
  c7_unsanitized_folder.2 ("mp3".toList) qmarkManifest
    ("mp3".toList ++ '/' :: (parseTxtLines qmarkManifest).1) '?'
    (by decide) (by decide) (by decide)

/-- C7 counterexample: the manifest first line `"Playlist: A?B"` parses to
the name `A?B`, which contains the forbidden character `?`; the directory
path used for downloads is `mp3/A?B`, which still contains `?`, and the
name is not equal to its sanitized form. -/
theorem c7_counterexample :
    (parseTxtLines qmarkManifest).1 = "A?B".toList ∧
    manifestFolder ("mp3".toList) qmarkManifest = some ("mp3/A?B".toList) ∧
    '?' ∈ ("mp3/A?B".toList) ∧ '?' ∈ forbiddenChars ∧
    decide (sanitize ("A?B".toList) = "A?B".toList) = false := by
  decide

/-- C9: in every reachable state of the bounded worker pool, no matter the
interleaving of job starts and finishes, at most `maxWorkers = 3` jobs run
simultaneously; resolver and fetcher calls are made only inside running
jobs, so at most 3 such calls are in flight. -/
theorem c9_concurrency_bound (n : Nat) (s : PoolState)
    (h : Relation.ReflTransGen PoolStep ⟨n, 0, 0⟩ s) :
    s.running ≤ maxWorkers := by
  induction h with
  | refl => simp [maxWorkers]
  | tail hsteps hstep ih =>
    cases hstep with
    | start p r d hr => exact hr
    | finish p r d => exact Nat.le_of_succ_le ih

/-- C9 witness: from five submitted jobs, after three starts the pool has
three running jobs, within the bound. -/
theorem c9_concurrency_bound_witness :
    (⟨2, 3, 0⟩ : PoolState).running ≤ maxWorkers :=
  c9_concurrency_bound 5 ⟨2, 3, 0⟩
    (Relation.ReflTransGen.head (PoolStep.start 4 0 0 (by decide))
      (Relation.ReflTransGen.head (PoolStep.start 3 1 0 (by decide))
        (Relation.ReflTransGen.head (PoolStep.start 2 2 0 (by decide))
          Relation.ReflTransGen.refl)))

/-- C10: the playlist name is the first line with every occurrence of
`"Playlist: "` removed and then stripped: the manifest headed
`"Playlist: My Playlist: Mix"` parses to the name `"My Mix"`, not to
`"My Playlist: Mix"`, while its track line parses normally. -/
theorem c10_replace_removes_all_occurrences :
    parseTxtLines mixManifest =
      ("My Mix".toList,
        [⟨"Song A".toList, "Artist B".toList, "Album C".toList⟩]) ∧
    decide ((parseTxtLines mixManifest).1 = "My Playlist: Mix".toList) =
      false := by
  decide
